import Mathlib

/-!
Shallow embedding of `src/eval/value.rs`: the dynamic value representation
and type-casting engine of a markup-language evaluator.  The `Value` sum
type, the cast protocol (`CastResult`, the `impl_primitive!` pattern tables,
the `impl_type!` open-ended host-type casts, the `Spanned` propagation
impls), the type-erasure container `ValueAny`, the function value
`ValueFunc`, the renderer (`Pretty` impls) and the template-evaluation
bridge (`Eval for &Value`) are translated from the source.  External
collaborator types (geometry, colors, floats, syntax trees, the evaluation
context) are modelled from the spec, as marked on each definition.
-/

namespace ValueSpec

/-- Modelled from the spec: a source-location tag (the `Span` type of the
syntax module, external to this file).  Only its identity matters here. -/
structure Span where
  lo : Nat
  hi : Nat
deriving DecidableEq, Repr

/-- A value with a source-location tag (`Spanned<T>` of the syntax module;
external, but its shape — payload plus span — is fixed by the spec). -/
structure Spanned (α : Type) where
  v : α
  span : Span
deriving DecidableEq, Repr

/-- Source `WithSpan::with_span`: attach a span to a value. -/
def withSpan {α : Type} (v : α) (span : Span) : Spanned α := ⟨v, span⟩

/-- Modelled from the spec: IEEE-754 double payloads (`f64`) are external to
this embedding.  Float values are kept symbolic; the only operation the
source uses is the `v as f64` int-to-float conversion, recorded by the
`ofInt` constructor. -/
inductive F64 where
  | ofInt (n : Int)
  | other (tag : Nat)
deriving DecidableEq, Repr

/-- The `v as f64` conversion used by the Int→Float coercion (Rust
primitive cast, external; kept symbolic). -/
def i64ToF64 (n : Int) : F64 := .ofInt n

/-- Modelled from the spec: an absolute length (`geom::Length`, external;
internal arithmetic out of scope, identity only). -/
structure Length where
  raw : Int
deriving DecidableEq, Repr

/-- Modelled from the spec: an angle (`geom::Angle`, external). -/
structure Angle where
  raw : Int
deriving DecidableEq, Repr

/-- Modelled from the spec: a relative (percentage) value
(`geom::Relative`, external). -/
structure Relative where
  raw : Int
deriving DecidableEq, Repr

/-- The zero percentage. -/
def Relative.zero : Relative := ⟨0⟩

/-- Modelled from the spec: a combination of an absolute length and a
relative value (`geom::Linear`, external). -/
structure Linear where
  rel : Relative
  abs : Length
deriving DecidableEq, Repr

/-- Modelled from the spec: `From<Length> for Linear` (external geometry
code) — a pure length has a zero relative component. -/
def Length.toLinear (l : Length) : Linear := ⟨Relative.zero, l⟩

/-- Modelled from the spec: `From<Relative> for Linear` (external geometry
code) — a pure percentage has a zero absolute component. -/
def Relative.toLinear (r : Relative) : Linear := ⟨r, ⟨0⟩⟩

/-- Modelled from the spec: a color value (`color::Color`, external). -/
structure Color where
  raw : Int
deriving DecidableEq, Repr

/-- Modelled from the spec: a node of rendered document output.
`make_text_node` wraps a string as a text node; other node kinds are
produced outside this file. -/
inductive Node where
  | text (s : String)
  | other (tag : Nat)
deriving DecidableEq, Repr

/-- Modelled from the spec: the evaluation context consumed by the
template-evaluation bridge.  Of its interface this file uses only the
output sink (`push` appends a node) and `make_text_node`. -/
structure EvalContext where
  out : List Node
deriving DecidableEq, Repr

/-- Source `ctx.make_text_node(s)`: wrap text as an output node (external;
modelled from the spec). -/
def EvalContext.makeTextNode (_ctx : EvalContext) (s : String) : Node :=
  .text s

/-- Source `ctx.push(node)`: append a node to the output sink (external; modelled
from the spec). -/
def EvalContext.push (ctx : EvalContext) (n : Node) : EvalContext :=
  { ctx with out := ctx.out ++ [n] }

/-- Modelled from the spec: a markup subtree (`syntax::Tree`, external).
Its concrete format is out of scope; we record only the output its
evaluation emits. -/
structure Tree where
  nodes : List Node
deriving DecidableEq, Repr

/-- Modelled from the spec: the external template evaluator — evaluating a
subtree emits its content into the context's output sink. -/
def Tree.evalTree (t : Tree) (ctx : EvalContext) : EvalContext :=
  { ctx with out := ctx.out ++ t.nodes }

/-- Modelled from the spec: rendering of a subtree (`Pretty for Tree`,
external) — the concatenation of its textual content. -/
def Tree.render (t : Tree) : String :=
  String.join (t.nodes.map fun n =>
    match n with
    | .text s => s
    | .other tag => toString tag)

/-- Modelled from the spec: the shared callable body of a function value
(`Rc<dyn Fn(&mut EvalContext, &mut Args) -> Value>`).  Calls are executed
by the external evaluator; here a body is identified by its allocation. -/
structure FuncBody where
  id : Nat
deriving DecidableEq, Repr

/-- A wrapper around a reference-counted executable function
(`ValueFunc`): a name for diagnostics plus the shared body. -/
structure ValueFunc where
  name : String
  f : FuncBody
deriving Repr

/-- Source `PartialEq for ValueFunc`: equality is unconditionally false. -/
def ValueFunc.eqFn (_a _b : ValueFunc) : Bool := false

/-- Modelled from the spec: the open-ended collection of host types meeting
the capability set {debug-print, display-print, clone, equality-compare,
named}.  The registered set lives outside this file; we model a closed
representative universe.  `i64` is included because the built-in integer
type meets the `ValueAny::new` bounds and so can itself be boxed. -/
inductive Ty where
  | i64
  | strT
  | alpha
  | beta
deriving DecidableEq, Repr

/-- The Lean type of each host type's instances. -/
@[reducible] def Ty.denote : Ty → Type
  | .i64 => Int
  | .strT => String
  | .alpha => Int
  | .beta => Int

instance Ty.decEqDenote (t : Ty) : DecidableEq t.denote := by
  cases t <;> (dsimp [Ty.denote]; infer_instance)

/-- Source `Type::TYPE_NAME` for each host type (modelled for the open-ended
ones; `i64` carries the name registered by `impl_primitive!`). -/
def Ty.name : Ty → String
  | .i64 => "integer"
  | .strT => "string"
  | .alpha => "alpha"
  | .beta => "beta"

/-- Modelled from the spec: the boxed instance's display form
(`Display`, supplied by each host type). -/
def Ty.display : (t : Ty) → t.denote → String
  | .i64, n => toString (show Int from n)
  | .strT, s => s
  | .alpha, n => toString (show Int from n)
  | .beta, n => toString (show Int from n)

/-- A wrapper around a dynamic value (`ValueAny`): one instance of a host
type behind the erased capability interface (`Box<dyn Bounds>`). -/
structure ValueAny where
  ty : Ty
  val : ty.denote

/-- Source `ValueAny::is::<T>()`: whether the wrapped type is `t`. -/
def ValueAny.is (t : Ty) (a : ValueAny) : Bool := decide (a.ty = t)

/-- Source `ValueAny::downcast::<T>()`: consume the container and return either
the unwrapped instance or, on mismatch, the original container. -/
def ValueAny.downcast (t : Ty) (a : ValueAny) : Except ValueAny t.denote :=
  if h : a.ty = t then .ok (h ▸ a.val) else .error a

/-- Source `ValueAny::downcast_ref::<T>()`: non-consuming test-and-view. -/
def ValueAny.downcastRef (t : Ty) (a : ValueAny) : Option t.denote :=
  if h : a.ty = t then some (h ▸ a.val) else none

/-- Source `ValueAny::type_name()`: the registered name of the stored type. -/
def ValueAny.typeName (a : ValueAny) : String := a.ty.name

/-- Source `Bounds::dyn_clone` / `Clone for ValueAny`: a new container holding a
clone of the same concrete instance. -/
def ValueAny.dynClone (a : ValueAny) : ValueAny := ⟨a.ty, a.val⟩

/-- Source `PartialEq for ValueAny` via `Bounds::dyn_eq`: downcast the right side
to the left side's concrete type; on success compare the instances, on
mismatch answer `false`. -/
def ValueAny.dynEq (a b : ValueAny) : Bool :=
  match b.downcastRef a.ty with
  | some w => decide (a.val = w)
  | none => false

/-- Source `ValueAny::pretty`: delegates to the boxed value's display form. -/
def ValueAny.render (a : ValueAny) : String := a.ty.display a.val

/-- A computational value (the `Value` enum). -/
inductive Value where
  | none
  | bool (v : Bool)
  | int (v : Int)
  | float (v : F64)
  | length (v : Length)
  | angle (v : Angle)
  | relative (v : Relative)
  | linear (v : Linear)
  | color (v : Color)
  | str (v : String)
  | array (v : List Value)
  | dict (v : List (String × Value))
  | template (v : Tree)
  | func (v : ValueFunc)
  | any (v : ValueAny)
  | error

/-- An array value (`ValueArray = Vec<Value>`). -/
abbrev ValueArray := List Value

/-- A dictionary value (`ValueDict = BTreeMap<String, Value>`), modelled as
its iteration form: an association list in strictly ascending key order. -/
abbrev ValueDict := List (String × Value)

/-- A template value (`ValueTemplate = Tree`). -/
abbrev ValueTemplate := Tree

/-- Source `Value::type_name()`: canonical lowercase tag per variant; for `Any`
it delegates to the boxed instance's registered name. -/
def Value.typeName : Value → String
  | .none => "none"
  | .bool _ => "boolean"
  | .int _ => "integer"
  | .float _ => "float"
  | .length _ => "length"
  | .angle _ => "angle"
  | .relative _ => "relative"
  | .linear _ => "linear"
  | .color _ => "color"
  | .str _ => "string"
  | .array _ => "array"
  | .dict _ => "dictionary"
  | .template _ => "template"
  | .func _ => "function"
  | .any v => v.typeName
  | .error => "error"

/-- Source `Value::is_numeric()`: true exactly for the six numeric variants. -/
def Value.isNumeric : Value → Bool
  | .int _ | .float _ | .length _ | .angle _ | .relative _ | .linear _ => true
  | _ => false

/-- Modelled from the spec: Rust's `{:?}` string formatter used by
`Pretty for Value` on `Str` — double-quoted with escapes (delegated to the
external formatter; quote and backslash escaping modelled). -/
def renderStrDebug (s : String) : String :=
  "\"" ++ s.foldl (fun acc c =>
    acc ++ if c = '"' then "\\\"" else if c = '\\' then "\\\\"
           else String.singleton c) "" ++ "\""

/-- Modelled from the spec: the shortest round-tripping decimal rendering
of a float (the external `ryu` formatter); symbolic on our float model. -/
def F64.render : F64 → String
  | .ofInt n => toString n ++ ".0"
  | .other tag => "float." ++ toString tag

/-- Modelled from the spec: the canonical unit-suffixed display form of a
length (external `Display for Length`). -/
def Length.render (l : Length) : String := toString l.raw ++ "pt"

/-- Modelled from the spec: the canonical display form of an angle
(external `Display for Angle`). -/
def Angle.render (a : Angle) : String := toString a.raw ++ "deg"

/-- Modelled from the spec: the canonical display form of a relative value
(external `Display for Relative`). -/
def Relative.render (r : Relative) : String := toString r.raw ++ "%"

/-- Modelled from the spec: the canonical display form of a linear value
(external `Display for Linear`). -/
def Linear.render (l : Linear) : String := l.rel.render ++ " + " ++ l.abs.render

/-- Modelled from the spec: the canonical display form of a color
(external `Display for Color`). -/
def Color.render (c : Color) : String := "#" ++ toString c.raw

/-- Source `Pretty for ValueFunc`: `(function NAME)`. -/
def ValueFunc.render (f : ValueFunc) : String := "(function " ++ f.name ++ ")"

mutual

/-- Source `Pretty for Value`: the canonical textual serialization of a value. -/
def Value.render : Value → String
  | .none => "none"
  | .bool v => toString v
  | .int v => toString v
  | .float v => v.render
  | .length v => v.render
  | .angle v => v.render
  | .relative v => v.render
  | .linear v => v.render
  | .color v => v.render
  | .str v => renderStrDebug v
  | .array v => Value.renderArray v
  | .dict v => Value.renderDict v
  | .template v => "[" ++ v.render ++ "]"
  | .func v => v.render
  | .any v => v.render
  | .error => "(error)"

/-- Source `Pretty for ValueArray`: comma-joined items in parentheses, with a
trailing comma when there is exactly one element. -/
def Value.renderArray (xs : List Value) : String :=
  "(" ++ Value.renderItems xs ++ (if xs.length = 1 then "," else "") ++ ")"

/-- The comma-separated item list of an array (`Printer::join`). -/
def Value.renderItems : List Value → String
  | [] => ""
  | [x] => Value.render x
  | x :: xs => Value.render x ++ ", " ++ Value.renderItems xs

/-- Source `Pretty for ValueDict`: `key: value` pairs comma-joined in
parentheses; the empty dictionary renders as `(:)`. -/
def Value.renderDict (ps : List (String × Value)) : String :=
  "(" ++ (if ps.isEmpty then ":" else Value.renderPairs ps) ++ ")"

/-- The comma-separated pair list of a dictionary (`Printer::join`). -/
def Value.renderPairs : List (String × Value) → String
  | [] => ""
  | [(k, v)] => k ++ ": " ++ Value.render v
  | (k, v) :: rest => k ++ ": " ++ Value.render v ++ ", " ++ Value.renderPairs rest

end

/-- Source `Eval for &Value`: the template-evaluation bridge.  `None` emits
nothing; `Str` appends its text verbatim as one text node; `Template`
delegates to the external template evaluator; every other variant is
rendered and appended as one text node. -/
def Value.eval (v : Value) (ctx : EvalContext) : EvalContext :=
  match v with
  | .none => ctx
  | .str s => ctx.push (ctx.makeTextNode s)
  | .template tree => tree.evalTree ctx
  | other => ctx.push (ctx.makeTextNode other.render)

/-- The result of casting a value to a specific type (`CastResult<T, V>`):
cast successfully, cast with a warning message, or failed with the value. -/
inductive CastResult (T V : Type) where
  | ok (t : T)
  | warn (t : T) (m : String)
  | err (v : V)
deriving DecidableEq, Repr

/-- Source `CastResult::ok`: access the conversion result, discarding a possibly
existing warning. -/
def CastResult.okOpt {T V : Type} : CastResult T V → Option T
  | .ok t => some t
  | .warn t _ => some t
  | .err _ => none

/-- Source `impl Cast<Value> for Value`: the identity cast. -/
def castValue (value : Value) : CastResult Value Value :=
  .ok value

/-- Source `impl<T> Cast<Spanned<Value>> for T`: cast a location-tagged value to a
bare target; a failure re-attaches the input's span to the returned value. -/
def castSpannedVal {T : Type} (c : Value → CastResult T Value)
    (value : Spanned Value) : CastResult T (Spanned Value) :=
  match c value.v with
  | .ok t => .ok t
  | .warn t m => .warn t m
  | .err v => .err (withSpan v value.span)

/-- Source `impl<T> Cast<Spanned<Value>> for Spanned<T>`: cast a location-tagged
value to a tagged target; the input's span is attached to the payload of
every outcome. -/
def castSpannedSpanned {T : Type} (c : Value → CastResult T Value)
    (value : Spanned Value) : CastResult (Spanned T) (Spanned Value) :=
  match c value.v with
  | .ok t => .ok (withSpan t value.span)
  | .warn t m => .warn (withSpan t value.span) m
  | .err v => .err (withSpan v value.span)

/-- Source `impl_primitive! { bool: "boolean", Value::Bool }`. -/
def castBool : Value → CastResult Bool Value
  | .bool v => .ok v
  | v => .err v

/-- Source `impl_primitive! { i64: "integer", Value::Int }`. -/
def castI64 : Value → CastResult Int Value
  | .int v => .ok v
  | v => .err v

/-- Source `impl_primitive! { f64: "float", Value::Float, Value::Int(v) => v as f64 }`. -/
def castF64 : Value → CastResult F64 Value
  | .float v => .ok v
  | .int v => .ok (i64ToF64 v)
  | v => .err v

/-- Source `impl_primitive! { Length: "length", Value::Length }`. -/
def castLength : Value → CastResult Length Value
  | .length v => .ok v
  | v => .err v

/-- Source `impl_primitive! { Angle: "angle", Value::Angle }`. -/
def castAngle : Value → CastResult Angle Value
  | .angle v => .ok v
  | v => .err v

/-- Source `impl_primitive! { Relative: "relative", Value::Relative }`. -/
def castRelative : Value → CastResult Relative Value
  | .relative v => .ok v
  | v => .err v

/-- Source `impl_primitive! { Linear: "linear", Value::Linear,
Value::Length(v) => v.into(), Value::Relative(v) => v.into() }`. -/
def castLinear : Value → CastResult Linear Value
  | .linear v => .ok v
  | .length v => .ok v.toLinear
  | .relative v => .ok v.toLinear
  | v => .err v

/-- Source `impl_primitive! { Color: "color", Value::Color }`. -/
def castColor : Value → CastResult Color Value
  | .color v => .ok v
  | v => .err v

/-- Source `impl_primitive! { String: "string", Value::Str }`. -/
def castStr : Value → CastResult String Value
  | .str v => .ok v
  | v => .err v

/-- Source `impl_primitive! { ValueArray: "array", Value::Array }`. -/
def castArray : Value → CastResult ValueArray Value
  | .array v => .ok v
  | v => .err v

/-- Source `impl_primitive! { ValueDict: "dictionary", Value::Dict }`. -/
def castDict : Value → CastResult ValueDict Value
  | .dict v => .ok v
  | v => .err v

/-- Source `impl_primitive! { ValueTemplate: "template", Value::Template }`. -/
def castTemplate : Value → CastResult ValueTemplate Value
  | .template v => .ok v
  | v => .err v

/-- Source `impl_primitive! { ValueFunc: "function", Value::Func }`. -/
def castFunc : Value → CastResult ValueFunc Value
  | .func v => .ok v
  | v => .err v

/-- The ordered pattern arms of a cast `match` (`$($pattern => Ok($out))*`):
the first arm accepting the value wins. -/
def firstPattern {α : Type} : List (Value → Option α) → Value → Option α
  | [], _ => Option.none
  | p :: rest, v =>
    match p v with
    | some t => some t
    | Option.none => firstPattern rest v

/-- The downcast chain of an `impl_type!` cast over the declared
`#($anyvar: $anytype) => $anyout` arms: each failed downcast rebinds the
container and the next source type is tried;  exhaustion fails with the
container wrapped back into a value. -/
def tryFroms (selfTy : Ty)
    (froms : List ((t : Ty) × (t.denote → selfTy.denote)))
    (a : ValueAny) : CastResult selfTy.denote Value :=
  match froms with
  | [] => .err (.any a)
  | ⟨t, f⟩ :: rest =>
    match a.downcast t with
    | .ok x => .ok (f x)
    | .error a2 => tryFroms selfTy rest a2

/-- The cast generated by `impl_type!` for a host type `selfTy`: the
declared pattern arms in order, then — for an `Any` input — a downcast to
`selfTy` followed by the declared source-type downcasts, then failure with
the original value. -/
def genTypeCast (selfTy : Ty)
    (pats : List (Value → Option selfTy.denote))
    (froms : List ((t : Ty) × (t.denote → selfTy.denote)))
    (value : Value) : CastResult selfTy.denote Value :=
  match firstPattern pats value with
  | some t => .ok t
  | Option.none =>
    match value with
    | .any a =>
      match a.downcast selfTy with
      | .ok t => .ok t
      | .error a2 => tryFroms selfTy froms a2
    | v => .err v

/-- Follows the spec's words (§4.2 resolution order, steps (1), (2), (4)):
given the direct variant match and the declared coercions of a target
type, resolve by (1) direct variant match, (2) the coercions in
declaration order, (4) otherwise `Err` with the original value.  Step (3),
the `Any` downcast, is deliberately absent: the amended claim states that
primitive targets never attempt it. -/
def specPrimResolution {α : Type} (direct : Value → Option α)
    (coercions : List (Value → Option α)) (v : Value) : CastResult α Value :=
  match direct v with
  | some t => .ok t
  | Option.none =>
    match firstPattern coercions v with
    | some t => .ok t
    | Option.none => .err v

/-- Follows the spec's words (§4.2 step (3), second half): the downcast
attempts to each type the target declares itself coercible from, in
declaration order, each attempt made on the input container. -/
def specAnyChain (selfTy : Ty)
    (froms : List ((t : Ty) × (t.denote → selfTy.denote)))
    (a : ValueAny) : Option selfTy.denote :=
  match froms with
  | [] => Option.none
  | ⟨t, f⟩ :: rest =>
    match a.downcast t with
    | .ok x => some (f x)
    | .error _ => specAnyChain selfTy rest a

/-- Follows the spec's words (§4.2 resolution order, steps (1)–(4)) for a
host type: (1)/(2) the declared patterns (direct match first) in
declaration order; (3) if the input is `Any`, a downcast to the target,
then the declared source-type downcasts in order; (4) otherwise `Err`
carrying the original value. -/
def specTypeResolution (selfTy : Ty)
    (pats : List (Value → Option selfTy.denote))
    (froms : List ((t : Ty) × (t.denote → selfTy.denote)))
    (v : Value) : CastResult selfTy.denote Value :=
  match firstPattern pats v with
  | some t => .ok t
  | Option.none =>
    match v with
    | .any a =>
      match a.downcast selfTy with
      | .ok t => .ok t
      | .error _ =>
        match specAnyChain selfTy froms a with
        | some t => .ok t
        | Option.none => .err (.any a)
    | u => .err u

/-- Spec-side direct variant match of the boolean target. -/
def directBool : Value → Option Bool
  | .bool v => some v
  | _ => Option.none

/-- Spec-side direct variant match of the integer target. -/
def directI64 : Value → Option Int
  | .int v => some v
  | _ => Option.none

/-- Spec-side direct variant match of the float target. -/
def directF64 : Value → Option F64
  | .float v => some v
  | _ => Option.none

/-- Spec-side declared coercion Int→Float. -/
def coerceIntToFloat : Value → Option F64
  | .int v => some (i64ToF64 v)
  | _ => Option.none

/-- Spec-side direct variant match of the length target. -/
def directLength : Value → Option Length
  | .length v => some v
  | _ => Option.none

/-- Spec-side direct variant match of the angle target. -/
def directAngle : Value → Option Angle
  | .angle v => some v
  | _ => Option.none

/-- Spec-side direct variant match of the relative target. -/
def directRelative : Value → Option Relative
  | .relative v => some v
  | _ => Option.none

/-- Spec-side direct variant match of the linear target. -/
def directLinear : Value → Option Linear
  | .linear v => some v
  | _ => Option.none

/-- Spec-side declared coercion Length→Linear. -/
def coerceLengthToLinear : Value → Option Linear
  | .length v => some v.toLinear
  | _ => Option.none

/-- Spec-side declared coercion Relative→Linear. -/
def coerceRelativeToLinear : Value → Option Linear
  | .relative v => some v.toLinear
  | _ => Option.none

/-- Spec-side direct variant match of the color target. -/
def directColor : Value → Option Color
  | .color v => some v
  | _ => Option.none

/-- Spec-side direct variant match of the string target. -/
def directStr : Value → Option String
  | .str v => some v
  | _ => Option.none

/-- Spec-side direct variant match of the array target. -/
def directArray : Value → Option ValueArray
  | .array v => some v
  | _ => Option.none

/-- Spec-side direct variant match of the dictionary target. -/
def directDict : Value → Option ValueDict
  | .dict v => some v
  | _ => Option.none

/-- Spec-side direct variant match of the template target. -/
def directTemplate : Value → Option ValueTemplate
  | .template v => some v
  | _ => Option.none

/-- Spec-side direct variant match of the function target. -/
def directFunc : Value → Option ValueFunc
  | .func v => some v
  | _ => Option.none

/-- A failed downcast loses nothing: the returned container is the input
container. -/
theorem downcast_error_eq (t : Ty) (a a2 : ValueAny)
    (h : a.downcast t = .error a2) : a2 = a := by
  unfold ValueAny.downcast at h
  split at h
  · exact absurd h (by simp)
  · exact (Except.error.inj h).symm

/-- The rebinding downcast chain of `impl_type!` agrees with the spec-side
chain over the fixed input container, and fails with the original
container. -/
theorem tryFroms_eq_specAnyChain (selfTy : Ty)
    (froms : List ((t : Ty) × (t.denote → selfTy.denote))) (a : ValueAny) :
    tryFroms selfTy froms a =
      match specAnyChain selfTy froms a with
      | some t => .ok t
      | Option.none => .err (.any a) := by
  induction froms with
  | nil => rfl
  | cons hd rest ih =>
    obtain ⟨t, f⟩ := hd
    unfold tryFroms specAnyChain
    cases h : a.downcast t with
    | ok x => rfl
    | error a2 =>
      have := downcast_error_eq t a a2 h
      subst this
      exact ih

/-- Source `impl_primitive!` for `bool` realizes the spec's primitive resolution
order (direct match, declared coercions, Err). -/
theorem castBool_spec : ∀ v, castBool v = specPrimResolution directBool [] v := by
  intro v; cases v <;> rfl

/-- Source `impl_primitive!` for `i64` realizes the primitive resolution order. -/
theorem castI64_spec : ∀ v, castI64 v = specPrimResolution directI64 [] v := by
  intro v; cases v <;> rfl

/-- Source `impl_primitive!` for `f64` realizes the primitive resolution order
with the Int→Float coercion. -/
theorem castF64_spec :
    ∀ v, castF64 v = specPrimResolution directF64 [coerceIntToFloat] v := by
  intro v; cases v <;> rfl

/-- Source `impl_primitive!` for `Length` realizes the primitive resolution order. -/
theorem castLength_spec :
    ∀ v, castLength v = specPrimResolution directLength [] v := by
  intro v; cases v <;> rfl

/-- Source `impl_primitive!` for `Angle` realizes the primitive resolution order. -/
theorem castAngle_spec :
    ∀ v, castAngle v = specPrimResolution directAngle [] v := by
  intro v; cases v <;> rfl

/-- Source `impl_primitive!` for `Relative` realizes the primitive resolution
order. -/
theorem castRelative_spec :
    ∀ v, castRelative v = specPrimResolution directRelative [] v := by
  intro v; cases v <;> rfl

/-- Source `impl_primitive!` for `Linear` realizes the primitive resolution order
with the Length→Linear and Relative→Linear coercions, in declaration
order. -/
theorem castLinear_spec :
    ∀ v, castLinear v =
      specPrimResolution directLinear [coerceLengthToLinear, coerceRelativeToLinear] v := by
  intro v; cases v <;> rfl

/-- Source `impl_primitive!` for `Color` realizes the primitive resolution order. -/
theorem castColor_spec :
    ∀ v, castColor v = specPrimResolution directColor [] v := by
  intro v; cases v <;> rfl

/-- Source `impl_primitive!` for `String` realizes the primitive resolution order. -/
theorem castStr_spec : ∀ v, castStr v = specPrimResolution directStr [] v := by
  intro v; cases v <;> rfl

/-- Source `impl_primitive!` for `ValueArray` realizes the primitive resolution
order. -/
theorem castArray_spec :
    ∀ v, castArray v = specPrimResolution directArray [] v := by
  intro v; cases v <;> rfl

/-- Source `impl_primitive!` for `ValueDict` realizes the primitive resolution
order. -/
theorem castDict_spec : ∀ v, castDict v = specPrimResolution directDict [] v := by
  intro v; cases v <;> rfl

/-- Source `impl_primitive!` for `ValueTemplate` realizes the primitive resolution
order. -/
theorem castTemplate_spec :
    ∀ v, castTemplate v = specPrimResolution directTemplate [] v := by
  intro v; cases v <;> rfl

/-- Source `impl_primitive!` for `ValueFunc` realizes the primitive resolution
order. -/
theorem castFunc_spec : ∀ v, castFunc v = specPrimResolution directFunc [] v := by
  intro v; cases v <;> rfl

/-- The `impl_type!` cast realizes the spec's full resolution order,
including the `Any` downcast step. -/
theorem genTypeCast_spec (selfTy : Ty)
    (pats : List (Value → Option selfTy.denote))
    (froms : List ((t : Ty) × (t.denote → selfTy.denote))) (v : Value) :
    genTypeCast selfTy pats froms v = specTypeResolution selfTy pats froms v := by
  unfold genTypeCast specTypeResolution
  cases hp : firstPattern pats v with
  | some t => rfl
  | none =>
    cases v
    case any a =>
      cases hd : a.downcast selfTy with
      | ok t => simp only [hd]
      | error a2 =>
        obtain rfl := downcast_error_eq selfTy a a2 hd
        have htf := tryFroms_eq_specAnyChain selfTy froms a2
        cases hs : specAnyChain selfTy froms a2 <;>
          simp only [hs] at htf <;> simp only [hd, hs, htf]
    all_goals rfl

/-- A primitive-order resolution that fails returns the original value. -/
theorem specPrimResolution_err {α : Type} (direct : Value → Option α)
    (coercions : List (Value → Option α)) (v w : Value)
    (h : specPrimResolution direct coercions v = .err w) : w = v := by
  unfold specPrimResolution at h
  split at h
  · exact CastResult.noConfusion h
  · split at h
    · exact CastResult.noConfusion h
    · exact (CastResult.err.inj h).symm

/-- A host-type-order resolution that fails returns the original value. -/
theorem specTypeResolution_err (selfTy : Ty)
    (pats : List (Value → Option selfTy.denote))
    (froms : List ((t : Ty) × (t.denote → selfTy.denote))) (v w : Value)
    (h : specTypeResolution selfTy pats froms v = .err w) : w = v := by
  unfold specTypeResolution at h
  split at h
  · exact CastResult.noConfusion h
  · split at h
    · split at h
      · exact CastResult.noConfusion h
      · split at h
        · exact CastResult.noConfusion h
        · exact (CastResult.err.inj h).symm
    · exact (CastResult.err.inj h).symm

/-- C1: for every cast of a location-tagged value, the failure result
carries the input's span on the returned (original) payload, and when the
requested target is itself tagged (`Spanned<T>`), the success and warning
payloads carry the input's span as well — a failed cast returns the tagged
original value, never a bare value. -/
theorem spanned_cast_propagates_span {T : Type} (c : Value → CastResult T Value)
    (v : Value) (s : Span) :
    (∀ t, castSpannedSpanned c ⟨v, s⟩ = .ok t → t.span = s) ∧
    (∀ t m, castSpannedSpanned c ⟨v, s⟩ = .warn t m → t.span = s) ∧
    (∀ w, castSpannedSpanned c ⟨v, s⟩ = .err w → w.span = s ∧ c v = .err w.v) ∧
    (∀ w, castSpannedVal c ⟨v, s⟩ = .err w → w.span = s ∧ c v = .err w.v) := by
  unfold castSpannedSpanned castSpannedVal
  dsimp only
  cases h : c v with
  | ok t0 =>
    refine ⟨?_, ?_, ?_, ?_⟩
    · intro t ht
      obtain rfl := (CastResult.ok.inj ht).symm
      rfl
    · intro t m ht
      exact CastResult.noConfusion ht
    · intro w hw
      exact CastResult.noConfusion hw
    · intro w hw
      exact CastResult.noConfusion hw
  | warn t0 m0 =>
    refine ⟨?_, ?_, ?_, ?_⟩
    · intro t ht
      exact CastResult.noConfusion ht
    · intro t m ht
      obtain ⟨h1, h2⟩ := CastResult.warn.inj ht
      obtain rfl := h1.symm
      rfl
    · intro w hw
      exact CastResult.noConfusion hw
    · intro w hw
      exact CastResult.noConfusion hw
  | err v0 =>
    refine ⟨?_, ?_, ?_, ?_⟩
    · intro t ht
      exact CastResult.noConfusion ht
    · intro t m ht
      exact CastResult.noConfusion ht
    · intro w hw
      obtain rfl := (CastResult.err.inj hw).symm
      exact ⟨rfl, rfl⟩
    · intro w hw
      obtain rfl := (CastResult.err.inj hw).symm
      exact ⟨rfl, rfl⟩

/-- C1 witness: casting the tagged string `"x"` to the integer target
fails, and the failure payload carries the input's span together with the
original value. -/
theorem spanned_cast_propagates_span_witness :
    Spanned.span (withSpan (Value.str "x") ⟨2, 5⟩) = ⟨2, 5⟩ ∧
    castI64 (Value.str "x") = .err (Value.str "x") :=
  (spanned_cast_propagates_span castI64 (Value.str "x") ⟨2, 5⟩).2.2.2
    (withSpan (Value.str "x") ⟨2, 5⟩) rfl

/-- C2 counterexample: the integer target is registered through
`impl_primitive!`, so casting an `Any` input that wraps an `i64` to `i64`
returns `Err` — although the input is the `Any` variant and a downcast to
the target would succeed, which by the claimed resolution order (step 3)
would have to produce `Ok`. -/
theorem primitive_cast_ignores_any_counterexample :
    castI64 (Value.any (ValueAny.mk Ty.i64 (42 : Int))) =
      CastResult.err (Value.any (ValueAny.mk Ty.i64 (42 : Int))) ∧
    (ValueAny.mk Ty.i64 (42 : Int)).downcast Ty.i64 = Except.ok (42 : Int) ∧
    specTypeResolution Ty.i64 [directI64] []
      (Value.any (ValueAny.mk Ty.i64 (42 : Int))) = CastResult.ok (42 : Int) :=
  ⟨rfl, rfl, rfl⟩

/-- C2 (amended): host types registered through the open-ended interface
(`impl_type!`) resolve by (1) direct variant match, (2) declared coercion
patterns in declaration order, (3) for an `Any` input a downcast to the
target and then to each declared source type in order, (4) otherwise
`Err`; targets registered through the primitive pattern tables
(`impl_primitive!`) resolve by steps (1), (2) and (4) only — an `Any`
input is never downcast and falls through to `Err`. -/
theorem cast_resolution_order :
    (∀ (selfTy : Ty) (pats : List (Value → Option selfTy.denote))
      (froms : List ((t : Ty) × (t.denote → selfTy.denote))) (v : Value),
        genTypeCast selfTy pats froms v = specTypeResolution selfTy pats froms v) ∧
    (∀ v, castBool v = specPrimResolution directBool [] v) ∧
    (∀ v, castI64 v = specPrimResolution directI64 [] v) ∧
    (∀ v, castF64 v = specPrimResolution directF64 [coerceIntToFloat] v) ∧
    (∀ v, castLength v = specPrimResolution directLength [] v) ∧
    (∀ v, castAngle v = specPrimResolution directAngle [] v) ∧
    (∀ v, castRelative v = specPrimResolution directRelative [] v) ∧
    (∀ v, castLinear v =
      specPrimResolution directLinear [coerceLengthToLinear, coerceRelativeToLinear] v) ∧
    (∀ v, castColor v = specPrimResolution directColor [] v) ∧
    (∀ v, castStr v = specPrimResolution directStr [] v) ∧
    (∀ v, castArray v = specPrimResolution directArray [] v) ∧
    (∀ v, castDict v = specPrimResolution directDict [] v) ∧
    (∀ v, castTemplate v = specPrimResolution directTemplate [] v) ∧
    (∀ v, castFunc v = specPrimResolution directFunc [] v) :=
  ⟨genTypeCast_spec, castBool_spec, castI64_spec, castF64_spec, castLength_spec,
    castAngle_spec, castRelative_spec, castLinear_spec, castColor_spec,
    castStr_spec, castArray_spec, castDict_spec, castTemplate_spec, castFunc_spec⟩

/-- C3: whenever a cast fails, the `Err` payload is the original input
value, unmodified — for every primitive pattern-table cast and for every
cast generated by the open-ended host-type interface. -/
theorem cast_err_returns_original :
    (∀ v w, castBool v = .err w → w = v) ∧
    (∀ v w, castI64 v = .err w → w = v) ∧
    (∀ v w, castF64 v = .err w → w = v) ∧
    (∀ v w, castLength v = .err w → w = v) ∧
    (∀ v w, castAngle v = .err w → w = v) ∧
    (∀ v w, castRelative v = .err w → w = v) ∧
    (∀ v w, castLinear v = .err w → w = v) ∧
    (∀ v w, castColor v = .err w → w = v) ∧
    (∀ v w, castStr v = .err w → w = v) ∧
    (∀ v w, castArray v = .err w → w = v) ∧
    (∀ v w, castDict v = .err w → w = v) ∧
    (∀ v w, castTemplate v = .err w → w = v) ∧
    (∀ v w, castFunc v = .err w → w = v) ∧
    (∀ (selfTy : Ty) (pats : List (Value → Option selfTy.denote))
      (froms : List ((t : Ty) × (t.denote → selfTy.denote))) (v w : Value),
        genTypeCast selfTy pats froms v = .err w → w = v) := by
  refine ⟨?_, ?_, ?_, ?_, ?_, ?_, ?_, ?_, ?_, ?_, ?_, ?_, ?_, ?_⟩
  · intro v w h
    exact specPrimResolution_err _ _ v w ((castBool_spec v).symm.trans h)
  · intro v w h
    exact specPrimResolution_err _ _ v w ((castI64_spec v).symm.trans h)
  · intro v w h
    exact specPrimResolution_err _ _ v w ((castF64_spec v).symm.trans h)
  · intro v w h
    exact specPrimResolution_err _ _ v w ((castLength_spec v).symm.trans h)
  · intro v w h
    exact specPrimResolution_err _ _ v w ((castAngle_spec v).symm.trans h)
  · intro v w h
    exact specPrimResolution_err _ _ v w ((castRelative_spec v).symm.trans h)
  · intro v w h
    exact specPrimResolution_err _ _ v w ((castLinear_spec v).symm.trans h)
  · intro v w h
    exact specPrimResolution_err _ _ v w ((castColor_spec v).symm.trans h)
  · intro v w h
    exact specPrimResolution_err _ _ v w ((castStr_spec v).symm.trans h)
  · intro v w h
    exact specPrimResolution_err _ _ v w ((castArray_spec v).symm.trans h)
  · intro v w h
    exact specPrimResolution_err _ _ v w ((castDict_spec v).symm.trans h)
  · intro v w h
    exact specPrimResolution_err _ _ v w ((castTemplate_spec v).symm.trans h)
  · intro v w h
    exact specPrimResolution_err _ _ v w ((castFunc_spec v).symm.trans h)
  · intro selfTy pats froms v w h
    exact specTypeResolution_err selfTy pats froms v w
      ((genTypeCast_spec selfTy pats froms v).symm.trans h)

/-- C3 witness: casting the integer `3` to the boolean target fails and
returns the original value. -/
theorem cast_err_returns_original_witness :
    castBool (Value.int 3) = CastResult.err (Value.int 3) ∧
    Value.int 3 = Value.int 3 :=
  ⟨rfl, cast_err_returns_original.1 (Value.int 3) (Value.int 3) rfl⟩

/-- C4: boxing any instance of a host type and downcasting back to that
type returns the instance unchanged; downcasting the container to any
other type fails and returns the container unchanged, with no data loss. -/
theorem box_downcast_roundtrip (t : Ty) (x : t.denote) :
    (ValueAny.mk t x).downcast t = Except.ok x ∧
    ∀ u : Ty, u ≠ t →
      (ValueAny.mk t x).downcast u = Except.error (ValueAny.mk t x) := by
  constructor
  · unfold ValueAny.downcast
    rw [dif_pos rfl]
  · intro u hu
    unfold ValueAny.downcast
    rw [dif_neg]
    intro h
    exact hu h.symm

/-- C4 witness: boxing the `alpha` instance `5` round-trips through a
downcast to `alpha`, and a downcast to the unrelated `beta` fails with the
container unchanged. -/
theorem box_downcast_roundtrip_witness :
    (ValueAny.mk Ty.alpha (5 : Int)).downcast Ty.alpha = Except.ok (5 : Int) ∧
    (ValueAny.mk Ty.alpha (5 : Int)).downcast Ty.beta =
      Except.error (ValueAny.mk Ty.alpha (5 : Int)) :=
  ⟨(box_downcast_roundtrip Ty.alpha (5 : Int)).1,
    (box_downcast_roundtrip Ty.alpha (5 : Int)).2 Ty.beta (by decide)⟩

/-- C5: two type-erasure containers are equal exactly when the right side
wraps the same concrete type as the left and the unwrapped instances are
equal; a concrete-type mismatch yields `false` (never an error), whatever
the payloads are. -/
theorem any_eq_iff_same_type_and_payload (a b : ValueAny) :
    (ValueAny.dynEq a b = true ↔ b.ty = a.ty ∧ HEq b.val a.val) ∧
    (a.ty ≠ b.ty → ValueAny.dynEq a b = false) := by
  obtain ⟨bt, bv⟩ := b
  obtain ⟨aty, av⟩ := a
  by_cases h : bt = aty
  · subst h
    have hd : ValueAny.dynEq ⟨bt, av⟩ ⟨bt, bv⟩ = decide (av = bv) := by
      unfold ValueAny.dynEq ValueAny.downcastRef
      rw [dif_pos rfl]
    refine ⟨?_, fun hne => absurd rfl hne⟩
    rw [hd]
    constructor
    · intro he
      exact ⟨rfl, heq_of_eq (of_decide_eq_true he).symm⟩
    · rintro ⟨-, he⟩
      exact decide_eq_true (eq_of_heq he).symm
  · have hd : ValueAny.dynEq ⟨aty, av⟩ ⟨bt, bv⟩ = false := by
      unfold ValueAny.dynEq ValueAny.downcastRef
      rw [dif_neg h]
    refine ⟨?_, fun _ => hd⟩
    rw [hd]
    constructor
    · intro he
      exact absurd he (by simp)
    · rintro ⟨he, -⟩
      exact absurd he h

/-- C5 witness: containers wrapping the distinct concrete types `alpha`
and `beta` compare unequal although the payloads are equal. -/
theorem any_eq_iff_same_type_and_payload_witness :
    ValueAny.dynEq (ValueAny.mk Ty.alpha (3 : Int)) (ValueAny.mk Ty.beta (3 : Int)) =
      false :=
  (any_eq_iff_same_type_and_payload
    (ValueAny.mk Ty.alpha (3 : Int)) (ValueAny.mk Ty.beta (3 : Int))).2 (by decide)

/-- C6: equality of function values is false for every pair of instances —
including a copy of the same instance — so the carried name never
participates in the comparison. -/
theorem func_eq_always_false :
    ∀ f g : ValueFunc, ValueFunc.eqFn f g = false :=
  fun _ _ => rfl

/-- C7: the declared built-in coercions — `Int(n)` casts to the float type
as `n` converted to float, `Length` and `Relative` values cast to
`Linear` — and the asymmetry: a `Linear` with a nonzero relative component
does not cast to `Length`. -/
theorem builtin_coercions :
    (∀ n : Int, castF64 (Value.int n) = CastResult.ok (i64ToF64 n)) ∧
    (∀ l : Length, castLinear (Value.length l) = CastResult.ok l.toLinear) ∧
    (∀ r : Relative, castLinear (Value.relative r) = CastResult.ok r.toLinear) ∧
    (∀ lin : Linear, lin.rel ≠ Relative.zero →
      castLength (Value.linear lin) = CastResult.err (Value.linear lin)) :=
  ⟨fun _ => rfl, fun _ => rfl, fun _ => rfl, fun _ _ => rfl⟩

/-- C7 witness: the coercions evaluated at `Int 7`, a sample length, a
sample relative, and a linear with nonzero relative component. -/
theorem builtin_coercions_witness :
    castF64 (Value.int 7) = CastResult.ok (i64ToF64 7) ∧
    castLinear (Value.length ⟨2⟩) = CastResult.ok (Length.toLinear ⟨2⟩) ∧
    castLinear (Value.relative ⟨30⟩) = CastResult.ok (Relative.toLinear ⟨30⟩) ∧
    castLength (Value.linear ⟨⟨1⟩, ⟨0⟩⟩) = CastResult.err (Value.linear ⟨⟨1⟩, ⟨0⟩⟩) :=
  ⟨builtin_coercions.1 7, builtin_coercions.2.1 ⟨2⟩, builtin_coercions.2.2.1 ⟨30⟩,
    builtin_coercions.2.2.2 ⟨⟨1⟩, ⟨0⟩⟩ (by decide)⟩

/-- C8: the renderer's literal outputs — `none`, `false`, `()`, `(none,)`,
`(1, 2)`, `(:)`, `(one: 1)`, `(function nil)` and `(error)` for the listed
inputs. -/
theorem render_literal_cases :
    Value.render .none = "none" ∧
    Value.render (.bool false) = "false" ∧
    Value.render (.array []) = "()" ∧
    Value.render (.array [.none]) = "(none,)" ∧
    Value.render (.array [.int 1, .int 2]) = "(1, 2)" ∧
    Value.render (.dict []) = "(:)" ∧
    Value.render (.dict [("one", .int 1)]) = "(one: 1)" ∧
    Value.render (.func ⟨"nil", ⟨0⟩⟩) = "(function nil)" ∧
    Value.render .error = "(error)" := by
  refine ⟨?_, ?_, ?_, ?_, ?_, ?_, ?_, ?_, ?_⟩ <;>
    (simp [Value.render, Value.renderArray, Value.renderItems, Value.renderDict,
      Value.renderPairs, ValueFunc.render]; try rfl)

/-- C9: the template-evaluation bridge — `None` emits nothing, `Str`
appends exactly one text node with its text verbatim, `Template` delegates
to the external template evaluator, and every other variant appends
exactly one text node carrying its rendered form. -/
theorem eval_bridge_cases :
    (∀ ctx, Value.eval .none ctx = ctx) ∧
    (∀ s ctx, Value.eval (.str s) ctx = { out := ctx.out ++ [Node.text s] }) ∧
    (∀ t ctx, Value.eval (.template t) ctx = t.evalTree ctx) ∧
    (∀ v ctx, v ≠ .none → (∀ s, v ≠ .str s) → (∀ t, v ≠ .template t) →
      Value.eval v ctx = { out := ctx.out ++ [Node.text v.render] }) := by
  refine ⟨fun _ => rfl, fun _ _ => rfl, fun _ _ => rfl, ?_⟩
  intro v ctx h1 h2 h3
  cases v
  case none => exact absurd rfl h1
  case str s => exact absurd rfl (h2 s)
  case template t => exact absurd rfl (h3 t)
  all_goals rfl

/-- C9 witness: evaluating `Int 5` into an empty context appends exactly
one text node `"5"` via the stringification fallback. -/
theorem eval_bridge_cases_witness :
    Value.eval (Value.int 5) ⟨[]⟩ = ⟨[Node.text "5"]⟩ := by
  have h := eval_bridge_cases.2.2.2 (Value.int 5) ⟨[]⟩
    (fun he => Value.noConfusion he)
    (fun s he => Value.noConfusion he)
    (fun t he => Value.noConfusion he)
  rw [h]
  simp [Value.render]
  rfl

/-- C10: casting any value to the `Value` type itself always succeeds and
returns the value unchanged — the identity cast never fails or warns. -/
theorem identity_cast_ok : ∀ v : Value, castValue v = CastResult.ok v :=
  fun _ => rfl

end ValueSpec
